import Mathlib

/-
Verification of the py4cast graph-LAM model core (src/pnia/models/nlam/models.py),
the dataset registry (src/py4cast/datasets/init file) and the training entry
point (src/bin/train_vincent.py), against the natural-language specification.

Tensors are shallowly embedded: a tensor is a shape together with a total data
function on Nat indices; the shape fields are authoritative and out-of-range
values are junk.  Operations that torch checks at runtime (cat, elementwise
add/mul, MLP input dimension) are Option-valued and fail on shape mismatch.
Floating point values are modelled by Int: every claim here is about data
movement, shapes and identities, never about rounding.
-/

/-- A batched 3-axis tensor of shape (B, N, d): batch, node axis, feature axis. -/
structure Tensor3 where
  B : Nat
  N : Nat
  d : Nat
  data : Nat → Nat → Nat → Int

instance : Inhabited Tensor3 := ⟨⟨0, 0, 0, fun _ _ _ => 0⟩⟩

/-- An unbatched 2-axis tensor of shape (N, d). -/
structure Tensor2 where
  N : Nat
  d : Nat
  data : Nat → Nat → Int

instance : Inhabited Tensor2 := ⟨⟨0, 0, fun _ _ => 0⟩⟩

def Tensor3.shape (t : Tensor3) : Nat × Nat × Nat := (t.B, t.N, t.d)

/-- The feature vector of node n in batch element b. -/
def Tensor3.vec (t : Tensor3) (b n : Nat) : Nat → Int := fun k => t.data b n k

/-- Extensional equality of tensors: equal shapes and equal in-range entries. -/
def Tensor3.EqOn (t u : Tensor3) : Prop :=
  t.B = u.B ∧ t.N = u.N ∧ t.d = u.d ∧
    ∀ b, b < t.B → ∀ n, n < t.N → ∀ k, k < t.d → t.data b n k = u.data b n k

instance (t u : Tensor3) : Decidable (Tensor3.EqOn t u) := by
  unfold Tensor3.EqOn; infer_instance

/-- torch.cat along the last (feature) axis; torch requires equal leading dims. -/
def catFeat (t u : Tensor3) : Option Tensor3 :=
  if t.B = u.B ∧ t.N = u.N then
    some ⟨t.B, t.N, t.d + u.d,
      fun b n k => if k < t.d then t.data b n k else u.data b n (k - t.d)⟩
  else none

/-- torch.cat of two tensors along the node axis (dim=1). -/
def cat2dim1 (t u : Tensor3) : Option Tensor3 :=
  if t.B = u.B ∧ t.d = u.d then
    some ⟨t.B, t.N + u.N, t.d,
      fun b n k => if n < t.N then t.data b n k else u.data b (n - t.N) k⟩
  else none

/-- torch.cat of a nonempty list of tensors along the node axis (dim=1). -/
def catDim1 : List Tensor3 → Option Tensor3
  | [] => none
  | [t] => some t
  | t :: u :: rest => (catDim1 (u :: rest)).bind (fun c => cat2dim1 t c)

/-- The contiguous slice of len nodes starting at node off. -/
def sliceDim1 (t : Tensor3) (off len : Nat) : Tensor3 :=
  ⟨t.B, len, t.d, fun b n k => t.data b (off + n) k⟩

/-- torch.split along dim=1 with explicit section sizes, from a start offset. -/
def splitDim1Aux (t : Tensor3) (off : Nat) : List Nat → List Tensor3
  | [] => []
  | s :: rest => sliceDim1 t off s :: splitDim1Aux t (off + s) rest

/-- torch.split along dim=1 with explicit section sizes. -/
def splitDim1 (t : Tensor3) (sections : List Nat) : List Tensor3 :=
  splitDim1Aux t 0 sections

/-- Elementwise addition; torch requires identical shapes here. -/
def tAdd (t u : Tensor3) : Option Tensor3 :=
  if t.B = u.B ∧ t.N = u.N ∧ t.d = u.d then
    some ⟨t.B, t.N, t.d, fun b n k => t.data b n k + u.data b n k⟩
  else none

/-- A 1-axis tensor (a vector over the feature axis), e.g. step_diff_std. -/
structure Vec where
  dim : Nat
  v : Nat → Int

/-- Broadcast multiply of a (B, N, d) tensor with a (d,) vector. -/
def mulVec (t : Tensor3) (w : Vec) : Option Tensor3 :=
  if t.d = w.dim then
    some ⟨t.B, t.N, t.d, fun b n k => t.data b n k * w.v k⟩
  else none

/-- Broadcast add of a (B, N, d) tensor with a (d,) vector. -/
def addVec (t : Tensor3) (w : Vec) : Option Tensor3 :=
  if t.d = w.dim then
    some ⟨t.B, t.N, t.d, fun b n k => t.data b n k + w.v k⟩
  else none

/-- Modelled from the spec: expand_to_batch of the external ARModel base class
(pnia.models.ar_model, not under src/) repeats an unbatched (N, d) tensor to
batch shape (B, N, d). -/
def expandToBatch (t : Tensor2) (B : Nat) : Tensor3 :=
  ⟨B, t.N, t.d, fun _ n k => t.data n k⟩

/-- An MLP as used by neural_lam utils.make_mlp: a fixed input dimension, a
fixed output dimension, and an arbitrary map on feature vectors (the weights
are opaque to all claims proved here). -/
structure Mlp where
  din : Nat
  dout : Nat
  f : (Nat → Int) → Nat → Int

/-- MLP applied pointwise over batch and node axes; torch fails when the last
axis does not match the first linear layer input dimension. -/
def applyMlp3 (m : Mlp) (t : Tensor3) : Option Tensor3 :=
  if t.d = m.din then
    some ⟨t.B, t.N, m.dout, fun b n k => m.f (fun j => t.data b n j) k⟩
  else none

/-- MLP applied pointwise over the node axis of an unbatched tensor. -/
def applyMlp2 (m : Mlp) (t : Tensor2) : Option Tensor2 :=
  if t.d = m.din then
    some ⟨t.N, m.dout, fun n k => m.f (fun j => t.data n j) k⟩
  else none

/-- Opaque weight functions of one InteractionNet instance: the message MLP,
the residual node-update MLP and the residual edge-update MLP. -/
structure GnnWeights where
  msg : (Nat → Int) → (Nat → Int) → (Nat → Int) → Nat → Int
  nodeUpd : (Nat → Int) → (Nat → Int) → Nat → Int
  edgeUpd : (Nat → Int) → (Nat → Int) → (Nat → Int) → Nat → Int

/-- Modelled from the spec: one InteractionNet instance of neural_lam
(interaction_net, not under src/): a fixed directed edge index plus weights. -/
structure Gnn where
  edge_index : List (Nat × Nat)
  w : GnnWeights

instance : Inhabited Gnn :=
  ⟨⟨[], ⟨fun _ _ _ _ => 0, fun _ _ _ => 0, fun _ _ _ _ => 0⟩⟩⟩

/-- Modelled from the spec: an InteractionNet forward pass.  For each edge a
message is formed from sender, receiver and edge representations; messages are
aggregated per receiver node; nodes and edges are updated by residual MLPs.
The updated receiver tensor keeps the receiver shape and the updated edge
tensor keeps the edge-representation shape. -/
def Gnn.run (g : Gnn) (sender receiver edge : Tensor3) : Tensor3 × Tensor3 :=
  let src := fun e => (g.edge_index.getD e (0, 0)).1
  let dst := fun e => (g.edge_index.getD e (0, 0)).2
  let message := fun b e =>
    g.w.msg (sender.vec b (src e)) (receiver.vec b (dst e)) (edge.vec b e)
  let agg := fun b n k =>
    (((List.range g.edge_index.length).filter (fun e => dst e = n)).map
      (fun e => message b e k)).sum
  (⟨receiver.B, receiver.N, receiver.d,
      fun b n k => receiver.data b n k +
        g.w.nodeUpd (receiver.vec b n) (fun j => agg b n j) k⟩,
   ⟨edge.B, edge.N, edge.d,
      fun b e k => edge.data b e k +
        g.w.edgeUpd (sender.vec b (src e)) (receiver.vec b (dst e))
          (edge.vec b e) k⟩)

/-- The node-only result, used where the net was built with update_edges=False. -/
def Gnn.runNode (g : Gnn) (sender receiver edge : Tensor3) : Tensor3 :=
  (g.run sender receiver edge).1

/-- The state of a constructed BaseGraphModel (models.py lines 9 to 65): graph
buffers, feature embedders, encode and decode InteractionNets, the output map,
the one-step difference statistics, and the two subclass hooks
embedd_mesh_nodes and process_step (abstract methods of the base class). -/
structure GraphModel where
  grid_state_dim : Nat
  grid_forcing_dim : Nat
  batch_static_feature_dim : Nat
  grid_static_features : Tensor2
  g2m_features : Tensor2
  m2g_features : Tensor2
  step_diff_mean : Vec
  step_diff_std : Vec
  grid_embedder : Mlp
  g2m_embedder : Mlp
  m2g_embedder : Mlp
  encoding_grid_mlp : Mlp
  output_map : Mlp
  g2m_gnn : Gnn
  m2g_gnn : Gnn
  embedd_mesh_nodes : Tensor2
  process_step : Tensor3 → Tensor3

def GraphModel.N_grid (m : GraphModel) : Nat := m.grid_static_features.N

/-- BaseGraphModel.predict_step (models.py lines 91 to 140): concatenate the
two most recent states, batch static features, forcing and batch-expanded grid
static features; embed grid and edge features; encode grid to mesh; process;
decode mesh to grid; map to the output feature dimension; rescale with the
one-step difference statistics; return prev_state plus the rescaled output. -/
def GraphModel.predict_step (m : GraphModel)
    (prev_state prev_prev_state batch_static_features forcing : Tensor3) :
    Option Tensor3 := do
  let batch_size := prev_state.B
  let c1 ← catFeat prev_state prev_prev_state
  let c2 ← catFeat c1 batch_static_features
  let c3 ← catFeat c2 forcing
  let grid_features ← catFeat c3 (expandToBatch m.grid_static_features batch_size)
  let grid_emb ← applyMlp3 m.grid_embedder grid_features
  let g2m_emb ← applyMlp2 m.g2m_embedder m.g2m_features
  let m2g_emb ← applyMlp2 m.m2g_embedder m.m2g_features
  let mesh_emb := m.embedd_mesh_nodes
  let mesh_emb_expanded := expandToBatch mesh_emb batch_size
  let g2m_emb_expanded := expandToBatch g2m_emb batch_size
  let mesh_rep := m.g2m_gnn.runNode grid_emb mesh_emb_expanded g2m_emb_expanded
  let enc ← applyMlp3 m.encoding_grid_mlp grid_emb
  let grid_rep ← tAdd grid_emb enc
  let mesh_rep2 := m.process_step mesh_rep
  let m2g_emb_expanded := expandToBatch m2g_emb batch_size
  let grid_rep2 := m.m2g_gnn.runNode mesh_rep2 grid_rep m2g_emb_expanded
  let net_output ← applyMlp3 m.output_map grid_rep2
  let scaled ← mulVec net_output m.step_diff_std
  let rescaled_net_output ← addVec scaled m.step_diff_mean
  tAdd prev_state rescaled_net_output

/-- A tiny concrete model (all dimensions 1, zero weights) used by witnesses. -/
def witnessModel : GraphModel where
  grid_state_dim := 1
  grid_forcing_dim := 1
  batch_static_feature_dim := 1
  grid_static_features := ⟨1, 1, fun _ _ => 0⟩
  g2m_features := ⟨1, 1, fun _ _ => 0⟩
  m2g_features := ⟨1, 1, fun _ _ => 0⟩
  step_diff_mean := ⟨1, fun _ => 0⟩
  step_diff_std := ⟨1, fun _ => 0⟩
  grid_embedder := ⟨5, 1, fun _ _ => 0⟩
  g2m_embedder := ⟨1, 1, fun _ _ => 0⟩
  m2g_embedder := ⟨1, 1, fun _ _ => 0⟩
  encoding_grid_mlp := ⟨1, 1, fun _ _ => 0⟩
  output_map := ⟨1, 1, fun _ _ => 0⟩
  g2m_gnn := default
  m2g_gnn := default
  embedd_mesh_nodes := ⟨1, 1, fun _ _ => 0⟩
  process_step := id

/-- A concrete (1, 1, 1) state tensor used by witnesses. -/
def witnessState : Tensor3 := ⟨1, 1, 1, fun _ _ _ => 0⟩

/-- The per-entry shape list of a list of representation tensors. -/
def shapeList (xs : List Tensor3) : List (Nat × Nat × Nat) := xs.map Tensor3.shape

/-- The state of a constructed BaseHiGraphModel (models.py lines 144 to 198):
per-level static features, per-level and per-family embedders, init GNNs over
up edges and read-out GNNs over down edges. -/
structure HiModel where
  mesh_static_features : List Tensor2
  m2m_features : List Tensor2
  mesh_up_features : List Tensor2
  mesh_down_features : List Tensor2
  mesh_embedders : List Mlp
  mesh_same_embedders : List Mlp
  mesh_up_embedders : List Mlp
  mesh_down_embedders : List Mlp
  mesh_init_gnns : List Gnn
  mesh_read_gnns : List Gnn

def HiModel.N_levels (m : HiModel) : Nat := m.mesh_static_features.length

/-- N_mesh_levels, the node count of every mesh level (models.py line 156). -/
def HiModel.N_mesh_levels (m : HiModel) : List Nat :=
  m.mesh_static_features.map Tensor2.N

/-- The level 1 and above static node embeddings built at the start of
process_step (models.py lines 230 to 233). -/
def HiModel.embedLevelsRest (m : HiModel) (B : Nat) : Option (List Tensor3) :=
  ((m.mesh_embedders.drop 1).zip (m.mesh_static_features.drop 1)).mapM
    (fun p => (applyMlp2 p.1 p.2).map (fun t => expandToBatch t B))

/-- Edge embedding lists built by zipping embedders with static edge features
and expanding to the batch (models.py lines 237 to 242). -/
def embedEdges (embs : List Mlp) (feats : List Tensor2) (B : Nat) :
    Option (List Tensor3) :=
  (embs.zip feats).mapM
    (fun p => (applyMlp2 p.1 p.2).map (fun t => expandToBatch t B))

/-- One iteration of the MESH INIT loop (models.py lines 246 to 257): the GNN
for level_l = i+1 runs over the up edges from level_l-1 into level_l and the
node list at level_l and the up edge list at level_l-1 are updated. -/
def meshInitStep (gnns : List Gnn) (st : List Tensor3 × List Tensor3) (i : Nat) :
    List Tensor3 × List Tensor3 :=
  let level_l := i + 1
  let g := gnns.getD i default
  let p := g.run (st.1.getD (level_l - 1) default) (st.1.getD level_l default)
    (st.2.getD (level_l - 1) default)
  (st.1.set level_l p.1, st.2.set (level_l - 1) p.2)

/-- The MESH INIT loop: level_l goes from 1 to the number of init GNNs. -/
def meshInitFold (gnns : List Gnn) (levels upRep : List Tensor3) :
    List Tensor3 × List Tensor3 :=
  (List.range gnns.length).foldl (meshInitStep gnns) (levels, upRep)

/-- One iteration of the MESH READ OUT loop (models.py lines 265 to 277): the
read GNN for level l runs over down edges from level l+1 into level l, and
only the node list at level l is updated (update_edges is False). -/
def meshReadoutStep (gnns : List Gnn) (downRep : List Tensor3)
    (lv : List Tensor3) (l : Nat) : List Tensor3 :=
  lv.set l ((gnns.getD l default).runNode (lv.getD (l + 1) default)
    (lv.getD l default) (downRep.getD l default))

/-- The MESH READ OUT loop: level_l goes from N_levels-2 down to 0. -/
def meshReadoutFold (gnns : List Gnn) (downRep levels : List Tensor3) :
    List Tensor3 :=
  ((List.range gnns.length).reverse).foldl (meshReadoutStep gnns downRep) levels

/-- BaseHiGraphModel.process_step (models.py lines 217 to 280): embed levels
1 and above and all edge families, run the init GNNs up the hierarchy, run the
pluggable hi_processor_step, run the read-out GNNs down the hierarchy, and
return only the bottom level representation. -/
def HiModel.process_step (m : HiModel)
    (hiStep : List Tensor3 → List Tensor3 → List Tensor3 → List Tensor3 →
      List Tensor3 × List Tensor3 × List Tensor3 × List Tensor3)
    (mesh_rep : Tensor3) : Option Tensor3 := do
  let rest ← m.embedLevelsRest mesh_rep.B
  let mesh_same_rep ← embedEdges m.mesh_same_embedders m.m2m_features mesh_rep.B
  let mesh_up_rep ← embedEdges m.mesh_up_embedders m.mesh_up_features mesh_rep.B
  let mesh_down_rep ← embedEdges m.mesh_down_embedders m.mesh_down_features mesh_rep.B
  let p := meshInitFold m.mesh_init_gnns (mesh_rep :: rest) mesh_up_rep
  let q := hiStep p.1 mesh_same_rep p.2 mesh_down_rep
  return (meshReadoutFold m.mesh_read_gnns q.2.2.2 q.1).getD 0 default

/-- A zero-weight MLP of input and output dimension 1, used by witnesses. -/
def zeroMlp : Mlp := ⟨1, 1, fun _ _ => 0⟩

/-- A tiny concrete two-level hierarchical model used by witnesses. -/
def hiWitnessModel : HiModel where
  mesh_static_features := [⟨1, 1, fun _ _ => 0⟩, ⟨1, 1, fun _ _ => 0⟩]
  m2m_features := [⟨1, 1, fun _ _ => 0⟩, ⟨1, 1, fun _ _ => 0⟩]
  mesh_up_features := [⟨1, 1, fun _ _ => 0⟩]
  mesh_down_features := [⟨1, 1, fun _ _ => 0⟩]
  mesh_embedders := [zeroMlp, zeroMlp]
  mesh_same_embedders := [zeroMlp, zeroMlp]
  mesh_up_embedders := [zeroMlp]
  mesh_down_embedders := [zeroMlp]
  mesh_init_gnns := [default]
  mesh_read_gnns := [default]

/-- The identity hi_processor_step policy, used by witnesses. -/
def idHiStep (a b c d : List Tensor3) :
    List Tensor3 × List Tensor3 × List Tensor3 × List Tensor3 := (a, b, c, d)

/-- A second concrete tensor, of two nodes, used by the C7 witness. -/
def witnessState2 : Tensor3 := ⟨1, 2, 1, fun _ n _ => Int.ofNat n + 3⟩

/-- The state of a constructed HiLAMParallel processor (models.py lines 365
to 392): the level partition and edge indexes inherited from the hierarchical
base plus the processor net list; edge_split_sections and the combined edge
index are derived from the three edge families in the fixed order same-level,
up, down. -/
structure HiParModel where
  N_levels : Nat
  N_mesh_levels : List Nat
  m2m_edge_index : List (List (Nat × Nat))
  mesh_up_edge_index : List (List (Nat × Nat))
  mesh_down_edge_index : List (List (Nat × Nat))
  processor_layers : Nat
  processor_nets : List Gnn

/-- edge_split_sections (models.py line 380): edge counts of the families in
the concatenation order same-level, then up, then down. -/
def HiParModel.edge_split_sections (m : HiParModel) : List Nat :=
  (m.m2m_edge_index ++ m.mesh_up_edge_index ++ m.mesh_down_edge_index).map
    List.length

/-- The processor (models.py lines 382 to 392): the identity lambda when
processor_layers is zero, else the chained InteractionNets, each called as
net(mesh_rep, mesh_rep, edge_rep) and returning both tensors. -/
def HiParModel.processor (m : HiParModel) (x e : Tensor3) : Tensor3 × Tensor3 :=
  if m.processor_layers = 0 then (x, e)
  else m.processor_nets.foldl (fun p net => net.run p.1 p.1 p.2) (x, e)

/-- HiLAMParallel.hi_processor_step (models.py lines 394 to 430): concatenate
node levels and the edge families (same-level, up, down) into single tensors,
run the processor, split back by N_mesh_levels and edge_split_sections, and
return the per-level and per-family lists: the first N_levels edge sections
are same-level, the next N_levels-1 are up, the last N_levels-1 are down. -/
def HiParModel.hi_processor_step (m : HiParModel)
    (mesh_rep_levels mesh_same_rep mesh_up_rep mesh_down_rep : List Tensor3) :
    Option (List Tensor3 × List Tensor3 × List Tensor3 × List Tensor3) := do
  let mesh_rep ← catDim1 mesh_rep_levels
  let mesh_edge_rep ← catDim1 (mesh_same_rep ++ mesh_up_rep ++ mesh_down_rep)
  let p := m.processor mesh_rep mesh_edge_rep
  let sections := splitDim1 p.2 m.edge_split_sections
  return (splitDim1 p.1 m.N_mesh_levels,
    sections.take m.N_levels,
    (sections.drop m.N_levels).take (m.N_levels - 1),
    sections.drop (m.N_levels + (m.N_levels - 1)))

/-- A tiny concrete HiLAMParallel state with zero processor layers. -/
def hiParWitnessModel : HiParModel where
  N_levels := 2
  N_mesh_levels := [1, 1]
  m2m_edge_index := [[(0, 0)], [(1, 1)]]
  mesh_up_edge_index := [[(0, 1)]]
  mesh_down_edge_index := [[(1, 0)]]
  processor_layers := 0
  processor_nets := []

/-- The per-level edge counts of the same-level family. -/
def HiParModel.same_sections (m : HiParModel) : List Nat :=
  m.m2m_edge_index.map List.length

/-- The per-level edge counts of the up family. -/
def HiParModel.up_sections (m : HiParModel) : List Nat :=
  m.mesh_up_edge_index.map List.length

/-- The per-level edge counts of the down family. -/
def HiParModel.down_sections (m : HiParModel) : List Nat :=
  m.mesh_down_edge_index.map List.length

/-- A label naming one GNN application inside the HiLAM sequential processor:
which edge family and which (receiving) level. -/
inductive GnnApp where
  | downEdge (l : Nat)
  | downSame (l : Nat)
  | upEdge (l : Nat)
  | upSame (l : Nat)
deriving DecidableEq

/-- HiLAM.mesh_down_step (models.py lines 479 to 508): run the same-level GNN
on the top level, then for level_l from L-2 down to 0 run the down-edge GNN
from level l+1 into level l (updating node and down-edge representations)
immediately followed by the same-level GNN at level l.  The returned trace
lists every GNN application in execution order. -/
def mesh_down_step (down_gnns same_gnns : List Gnn)
    (mesh_rep_levels mesh_same_rep mesh_down_rep : List Tensor3) :
    List Tensor3 × List Tensor3 × List Tensor3 × List GnnApp :=
  let top := same_gnns.length - 1
  let p0 := (same_gnns.getD top default).run (mesh_rep_levels.getD top default)
    (mesh_rep_levels.getD top default) (mesh_same_rep.getD top default)
  ((List.range (same_gnns.length - 1)).reverse).foldl
    (fun st l =>
      let dp := (down_gnns.getD l default).run (st.1.getD (l + 1) default)
        (st.1.getD l default) (st.2.2.1.getD l default)
      let sp := (same_gnns.getD l default).run dp.1 dp.1 (st.2.1.getD l default)
      (st.1.set l sp.1, st.2.1.set l sp.2, st.2.2.1.set l dp.2,
        st.2.2.2 ++ [GnnApp.downEdge l, GnnApp.downSame l]))
    (mesh_rep_levels.set top p0.1, mesh_same_rep.set top p0.2,
      mesh_down_rep, [GnnApp.downSame top])

/-- HiLAM.mesh_up_step (models.py lines 510 to 540): run the same-level GNN
on level 0, then for level_l from 1 to L-1 run the up-edge GNN from level
l-1 into level l (updating node and up-edge representations) immediately
followed by the same-level GNN at level l. -/
def mesh_up_step (up_gnns same_gnns : List Gnn)
    (mesh_rep_levels mesh_same_rep mesh_up_rep : List Tensor3) :
    List Tensor3 × List Tensor3 × List Tensor3 × List GnnApp :=
  let p0 := (same_gnns.getD 0 default).run (mesh_rep_levels.getD 0 default)
    (mesh_rep_levels.getD 0 default) (mesh_same_rep.getD 0 default)
  (List.range (same_gnns.length - 1)).foldl
    (fun st i =>
      let level_l := i + 1
      let upp := (up_gnns.getD (level_l - 1) default).run
        (st.1.getD (level_l - 1) default) (st.1.getD level_l default)
        (st.2.2.1.getD (level_l - 1) default)
      let sp := (same_gnns.getD level_l default).run upp.1 upp.1
        (st.2.1.getD level_l default)
      (st.1.set level_l sp.1, st.2.1.set level_l sp.2,
        st.2.2.1.set (level_l - 1) upp.2,
        st.2.2.2 ++ [GnnApp.upEdge level_l, GnnApp.upSame level_l]))
    (mesh_rep_levels.set 0 p0.1, mesh_same_rep.set 0 p0.2,
      mesh_up_rep, [GnnApp.upSame 0])

/-- The four per-repetition GNN ModuleLists of a constructed HiLAM processor
(models.py lines 440 to 453): each outer list has processor_layers entries;
down and up lists have N_levels-1 GNNs per entry, the same-level lists have
N_levels GNNs per entry, with independent weights per repetition. -/
structure HiLamGnns where
  mesh_down_gnns : List (List Gnn)
  mesh_down_same_gnns : List (List Gnn)
  mesh_up_gnns : List (List Gnn)
  mesh_up_same_gnns : List (List Gnn)

/-- The number of repetitions executed by the zip over the four ModuleLists
(python zip truncates to the shortest list). -/
def HiLamGnns.reps (g : HiLamGnns) : Nat :=
  min (min g.mesh_down_gnns.length g.mesh_down_same_gnns.length)
    (min g.mesh_up_gnns.length g.mesh_up_same_gnns.length)

/-- HiLAM.hi_processor_step (models.py lines 542 to 570): for each repetition
one full down-sweep (mesh_down_step) followed by one full up-sweep
(mesh_up_step), threading node, same-edge, up-edge and down-edge lists and
concatenating the traces. -/
def hiLam_hi_processor_step (g : HiLamGnns)
    (mesh_rep_levels mesh_same_rep mesh_up_rep mesh_down_rep : List Tensor3) :
    List Tensor3 × List Tensor3 × List Tensor3 × List Tensor3 × List GnnApp :=
  (List.range g.reps).foldl
    (fun st r =>
      let d := mesh_down_step (g.mesh_down_gnns.getD r [])
        (g.mesh_down_same_gnns.getD r []) st.1 st.2.1 st.2.2.2.1
      let u := mesh_up_step (g.mesh_up_gnns.getD r [])
        (g.mesh_up_same_gnns.getD r []) d.1 d.2.1 st.2.2.1
      (u.1, u.2.1, u.2.2.1, d.2.2.1, st.2.2.2.2 ++ d.2.2.2 ++ u.2.2.2))
    (mesh_rep_levels, mesh_same_rep, mesh_up_rep, mesh_down_rep, [])

/-- Concrete HiLAM GNN lists with one repetition and two levels. -/
def hiLamWitnessGnns : HiLamGnns :=
  ⟨[[default]], [[default, default]], [[default]], [[default, default]]⟩

/-- The attribute names set on a GraphLAM instance by the BaseGraphModel
constructor before models.py line 309 is reached: the hierarchical flag
(line 19), the graph buffers (Modelled from the spec: load_graph of
pnia.models.ar_model is not under src/; per the spec it returns a
hierarchical flag and the named graph tensors - grid static features,
mesh static and edge features and edge indexes, step-difference statistics),
and the dimensions, embedders and GNNs defined on lines 28 to 65. -/
def baseGraphModelAttrs : List String :=
  ["hierarchical", "grid_static_features", "g2m_features", "m2g_features",
   "g2m_edge_index", "m2g_edge_index", "m2m_features", "m2m_edge_index",
   "mesh_static_features", "step_diff_mean", "step_diff_std",
   "N_grid", "N_mesh", "g2m_edges", "m2g_edges", "mlp_blueprint_end",
   "grid_embedder", "g2m_embedder", "m2g_embedder", "g2m_gnn",
   "encoding_grid_mlp", "m2g_gnn", "output_map"]

/-- Python attribute access self.name: ok when the attribute exists on the
object, otherwise an AttributeError naming the missing attribute. -/
def getattrCheck (attrs : List String) (name : String) : Except String Unit :=
  if name ∈ attrs then Except.ok () else Except.error ("AttributeError: " ++ name)

/-- GraphLAM.__init__ directly after the base constructor (models.py lines
309 to 310): the assert reads self.hierarchical and requires it to be False;
the print on line 310 then reads self.hierachical (note the missing letter r
- the attribute set on line 19 is hierarchical). -/
def graphLamInitPrefix (attrs : List String) (hierarchical : Bool) :
    Except String Unit := do
  let _ ← getattrCheck attrs "hierarchical"
  if hierarchical then
    Except.error "AssertionError: GraphLAM does not use a hierarchical mesh graph"
  else do
    let _ ← getattrCheck attrs "hierachical"
    Except.ok ()

/-- The outcome of a python import statement for a dataset module. -/
inductive ImportResult where
  | ok
  | importError
  | moduleNotFoundError
  | fileNotFoundError
  | otherError
deriving DecidableEq

/-- Exceptions caught by the smeagol clause `except ImportError:`
(ModuleNotFoundError subclasses ImportError). -/
def caughtBySmeagolClause : ImportResult → Bool
  | ImportResult.importError => true
  | ImportResult.moduleNotFoundError => true
  | _ => false

/-- Exceptions caught by the titan clause, which lists ImportError,
FileNotFoundError and ModuleNotFoundError. -/
def caughtByTitanClause : ImportResult → Bool
  | ImportResult.importError => true
  | ImportResult.moduleNotFoundError => true
  | ImportResult.fileNotFoundError => true
  | _ => false

/-- The registry and the warnings emitted while building it. -/
structure RegistryState where
  registry : List String
  warnings : List String
deriving DecidableEq

/-- One try/except register block of src/py4cast/datasets (lines 21 to 34):
on success the dataset is added to the registry; on a caught exception a
warning naming the dataset is recorded and the registry is left unchanged; an
uncaught exception propagates and the module import fails. -/
def tryRegister (name : String) (res : ImportResult)
    (catches : ImportResult → Bool) (st : RegistryState) :
    Except ImportResult RegistryState :=
  match res with
  | ImportResult.ok => Except.ok { st with registry := st.registry ++ [name] }
  | e =>
    if catches e then
      Except.ok { st with warnings := st.warnings ++ ["Could not import " ++ name] }
    else Except.error e

/-- The registry build at import time of src/py4cast/datasets: smeagol then
titan, starting from the empty registry. -/
def buildRegistry (smeagolRes titanRes : ImportResult) :
    Except ImportResult RegistryState := do
  let st ← tryRegister "smeagol" smeagolRes caughtBySmeagolClause ⟨[], []⟩
  tryRegister "titan" titanRes caughtByTitanClause st

/-- An import failure caused by a missing optional dependency (python raises
ImportError or its subclass ModuleNotFoundError). -/
def missingDep (r : ImportResult) : Prop :=
  r = ImportResult.importError ∨ r = ImportResult.moduleNotFoundError

instance (r : ImportResult) : Decidable (missingDep r) := by
  unfold missingDep; infer_instance

/-- The data loaders available inside main of src/bin/train_vincent.py. -/
inductive Loader where
  | train
  | val
  | test
deriving DecidableEq

/-- The observable outcome of main for a given evaluation setting. -/
inductive MainOutcome where
  | testedWith (l : Loader)
  | trained
  | nameError
deriving DecidableEq

/-- The evaluation branch of main (train_vincent.py lines 69 to 77): when an
evaluation mode is given, the local eval_loader is assigned only inside the
mode == val branch - first the validation loader (line 71), immediately
overwritten by the test loader (line 72); trainer.test is then called with
eval_loader, which raises an unbound-local NameError when that branch was not
taken.  Without an evaluation mode the model is trained instead. -/
def mainRun (evaluation : Option String) : MainOutcome :=
  match evaluation with
  | some ev =>
    let eval_loader : Option Loader :=
      if ev = "val" then
        let _dead := some Loader.val
        some Loader.test
      else none
    match eval_loader with
    | some l => MainOutcome.testedWith l
    | none => MainOutcome.nameError
  | none => MainOutcome.trained

theorem Tensor3.EqOn.refl (t : Tensor3) : Tensor3.EqOn t t :=
  ⟨rfl, rfl, rfl, fun _ _ _ _ _ _ => rfl⟩

theorem Tensor3.EqOn.trans {t u v : Tensor3} (h1 : Tensor3.EqOn t u)
    (h2 : Tensor3.EqOn u v) : Tensor3.EqOn t v := by
  obtain ⟨hB1, hN1, hd1, he1⟩ := h1
  obtain ⟨hB2, hN2, hd2, he2⟩ := h2
  exact ⟨hB1.trans hB2, hN1.trans hN2, hd1.trans hd2,
    fun b hb n hn k hk => (he1 b hb n hn k hk).trans
      (he2 b (hB1 ▸ hb) n (hN1 ▸ hn) k (hd1 ▸ hk))⟩

theorem Gnn.run_fst_shape (g : Gnn) (s r e : Tensor3) :
    (g.run s r e).1.shape = r.shape := rfl

theorem Gnn.run_snd_shape (g : Gnn) (s r e : Tensor3) :
    (g.run s r e).2.shape = e.shape := rfl

theorem Gnn.runNode_B (g : Gnn) (s r e : Tensor3) : (g.runNode s r e).B = r.B := rfl

theorem Gnn.runNode_N (g : Gnn) (s r e : Tensor3) : (g.runNode s r e).N = r.N := rfl

theorem Gnn.runNode_d (g : Gnn) (s r e : Tensor3) : (g.runNode s r e).d = r.d := rfl

theorem expandToBatch_B (t : Tensor2) (B : Nat) : (expandToBatch t B).B = B := rfl

theorem expandToBatch_N (t : Tensor2) (B : Nat) : (expandToBatch t B).N = t.N := rfl

theorem expandToBatch_d (t : Tensor2) (B : Nat) : (expandToBatch t B).d = t.d := rfl

theorem catFeat_eq (t u : Tensor3) (h1 : t.B = u.B) (h2 : t.N = u.N) :
    catFeat t u = some ⟨t.B, t.N, t.d + u.d,
      fun b n k => if k < t.d then t.data b n k else u.data b n (k - t.d)⟩ := by
  simp only [catFeat]; rw [if_pos ⟨h1, h2⟩]

theorem catFeat_some (t u : Tensor3) (h1 : t.B = u.B) (h2 : t.N = u.N) :
    ∃ c, catFeat t u = some c ∧ c.B = t.B ∧ c.N = t.N ∧ c.d = t.d + u.d :=
  ⟨_, catFeat_eq t u h1 h2, rfl, rfl, rfl⟩

theorem applyMlp3_eq (m : Mlp) (t : Tensor3) (h : t.d = m.din) :
    applyMlp3 m t = some ⟨t.B, t.N, m.dout,
      fun b n k => m.f (fun j => t.data b n j) k⟩ := by
  simp only [applyMlp3]; rw [if_pos h]

theorem applyMlp3_some (m : Mlp) (t : Tensor3) (h : t.d = m.din) :
    ∃ c, applyMlp3 m t = some c ∧ c.B = t.B ∧ c.N = t.N ∧ c.d = m.dout :=
  ⟨_, applyMlp3_eq m t h, rfl, rfl, rfl⟩

theorem applyMlp2_some (m : Mlp) (t : Tensor2) (h : t.d = m.din) :
    ∃ c, applyMlp2 m t = some c ∧ c.N = t.N ∧ c.d = m.dout := by
  refine ⟨⟨t.N, m.dout, fun n k => m.f (fun j => t.data n j) k⟩, ?_, rfl, rfl⟩
  simp only [applyMlp2]; rw [if_pos h]

theorem tAdd_eq (t u : Tensor3) (h1 : t.B = u.B) (h2 : t.N = u.N) (h3 : t.d = u.d) :
    tAdd t u = some ⟨t.B, t.N, t.d, fun b n k => t.data b n k + u.data b n k⟩ := by
  simp only [tAdd]; rw [if_pos ⟨h1, h2, h3⟩]

theorem tAdd_some (t u : Tensor3) (h1 : t.B = u.B) (h2 : t.N = u.N) (h3 : t.d = u.d) :
    ∃ c, tAdd t u = some c ∧ c.B = t.B ∧ c.N = t.N ∧ c.d = t.d :=
  ⟨_, tAdd_eq t u h1 h2 h3, rfl, rfl, rfl⟩

theorem mulVec_eq (t : Tensor3) (w : Vec) (h : t.d = w.dim) :
    mulVec t w = some ⟨t.B, t.N, t.d, fun b n k => t.data b n k * w.v k⟩ := by
  simp only [mulVec]; rw [if_pos h]

theorem mulVec_some (t : Tensor3) (w : Vec) (h : t.d = w.dim) :
    ∃ c, mulVec t w = some c ∧ c.B = t.B ∧ c.N = t.N ∧ c.d = t.d :=
  ⟨_, mulVec_eq t w h, rfl, rfl, rfl⟩

theorem addVec_eq (t : Tensor3) (w : Vec) (h : t.d = w.dim) :
    addVec t w = some ⟨t.B, t.N, t.d, fun b n k => t.data b n k + w.v k⟩ := by
  simp only [addVec]; rw [if_pos h]

theorem addVec_some (t : Tensor3) (w : Vec) (h : t.d = w.dim) :
    ∃ c, addVec t w = some c ∧ c.B = t.B ∧ c.N = t.N ∧ c.d = t.d :=
  ⟨_, addVec_eq t w h, rfl, rfl, rfl⟩

/-- C1: for every valid input batch (prev_state, prev_prev_state,
batch_static_features, forcing), predict_step succeeds: it concatenates the
two most recent states, batch static features, forcing and batch-expanded
static grid features into one grid feature tensor, runs embed, encode,
process and decode, maps to the output feature dimension, rescales by
step_diff_std and step_diff_mean, and returns prev_state plus the rescaled
output; the returned tensor has exactly the shape of prev_state. -/
theorem predict_step_shape (m : GraphModel)
    (prev_state prev_prev_state batch_static_features forcing : Tensor3)
    (hpN : prev_state.N = m.N_grid)
    (hpd : prev_state.d = m.grid_state_dim)
    (hqB : prev_prev_state.B = prev_state.B) (hqN : prev_prev_state.N = prev_state.N)
    (hqd : prev_prev_state.d = m.grid_state_dim)
    (hsB : batch_static_features.B = prev_state.B)
    (hsN : batch_static_features.N = prev_state.N)
    (hsd : batch_static_features.d = m.batch_static_feature_dim)
    (hfB : forcing.B = prev_state.B) (hfN : forcing.N = prev_state.N)
    (hfd : forcing.d = m.grid_forcing_dim)
    (hge : m.grid_embedder.din = 2 * m.grid_state_dim + m.grid_static_features.d
      + m.grid_forcing_dim + m.batch_static_feature_dim)
    (hg2m : m.g2m_embedder.din = m.g2m_features.d)
    (hm2g : m.m2g_embedder.din = m.m2g_features.d)
    (hencin : m.encoding_grid_mlp.din = m.grid_embedder.dout)
    (hencout : m.encoding_grid_mlp.dout = m.grid_embedder.dout)
    (homin : m.output_map.din = m.grid_embedder.dout)
    (homout : m.output_map.dout = m.grid_state_dim)
    (hstd : m.step_diff_std.dim = m.grid_state_dim)
    (hmean : m.step_diff_mean.dim = m.grid_state_dim) :
    ∃ out, m.predict_step prev_state prev_prev_state batch_static_features forcing
        = some out ∧ out.shape = prev_state.shape := by
  obtain ⟨c1, hc1, hc1B, hc1N, hc1d⟩ :=
    catFeat_some prev_state prev_prev_state hqB.symm hqN.symm
  obtain ⟨c2, hc2, hc2B, hc2N, hc2d⟩ :=
    catFeat_some c1 batch_static_features (by rw [hc1B, hsB]) (by rw [hc1N, hsN])
  obtain ⟨c3, hc3, hc3B, hc3N, hc3d⟩ :=
    catFeat_some c2 forcing (by rw [hc2B, hc1B, hfB]) (by rw [hc2N, hc1N, hfN])
  obtain ⟨gf, hgf, hgfB, hgfN, hgfd⟩ :=
    catFeat_some c3 (expandToBatch m.grid_static_features prev_state.B)
      (by rw [hc3B, hc2B, hc1B, expandToBatch_B])
      (by rw [hc3N, hc2N, hc1N, expandToBatch_N]; exact hpN)
  obtain ⟨ge, hge', hgeB, hgeN, hged⟩ := applyMlp3_some m.grid_embedder gf
    (by rw [hgfd, hc3d, hc2d, hc1d, hpd, hqd, hsd, hfd, expandToBatch_d, hge]; ring)
  obtain ⟨g2me, hg2me, hg2meN, hg2med⟩ :=
    applyMlp2_some m.g2m_embedder m.g2m_features hg2m.symm
  obtain ⟨m2ge, hm2ge, hm2geN, hm2ged⟩ :=
    applyMlp2_some m.m2g_embedder m.m2g_features hm2g.symm
  obtain ⟨enc, henc, hencB, hencN, hencd⟩ := applyMlp3_some m.encoding_grid_mlp ge
    (by rw [hged, hencin])
  obtain ⟨gr, hgr, hgrB, hgrN, hgrd⟩ := tAdd_some ge enc
    (by rw [hencB]) (by rw [hencN]) (by rw [hged, hencd, hencout])
  obtain ⟨no, hno, hnoB, hnoN, hnod⟩ := applyMlp3_some m.output_map
    (m.m2g_gnn.runNode
      (m.process_step (m.g2m_gnn.runNode ge
        (expandToBatch m.embedd_mesh_nodes prev_state.B)
        (expandToBatch g2me prev_state.B)))
      gr (expandToBatch m2ge prev_state.B))
    (by rw [Gnn.runNode_d, hgrd, hged]; exact homin.symm)
  obtain ⟨sc, hsc, hscB, hscN, hscd⟩ := mulVec_some no m.step_diff_std
    (by rw [hnod, homout, hstd])
  obtain ⟨rs, hrs, hrsB, hrsN, hrsd⟩ := addVec_some sc m.step_diff_mean
    (by rw [hscd, hnod, homout, hmean])
  obtain ⟨out, hout, houtB, houtN, houtd⟩ := tAdd_some prev_state rs
    (by rw [hrsB, hscB, hnoB, Gnn.runNode_B, hgrB, hgeB, hgfB, hc3B, hc2B, hc1B])
    (by rw [hrsN, hscN, hnoN, Gnn.runNode_N, hgrN, hgeN, hgfN, hc3N, hc2N, hc1N])
    (by rw [hrsd, hscd, hnod, homout]; exact hpd)
  refine ⟨out, ?_, ?_⟩
  · simp only [GraphModel.predict_step, Option.bind_eq_bind, hc1, hc2, hc3, hgf,
      hge', hg2me, hm2ge, henc, hgr, hno, hsc, hrs, Option.some_bind]
    exact hout
  · show (out.B, out.N, out.d) = (prev_state.B, prev_state.N, prev_state.d)
    rw [houtB, houtN, houtd]

/-- Witness for C1 at a concrete model and batch. -/
theorem predict_step_shape_witness :
    ∃ out, witnessModel.predict_step witnessState witnessState witnessState
        witnessState = some out ∧ out.shape = witnessState.shape :=
  predict_step_shape witnessModel witnessState witnessState witnessState witnessState
    rfl rfl rfl rfl rfl rfl rfl rfl rfl rfl rfl rfl rfl rfl rfl rfl rfl rfl rfl rfl

/-- The tail of predict_step (output map, rescale, residual add) returns
exactly prev when the output map weights are zero and mean is zero. -/
theorem output_zero_tail (om : Mlp) (grid_rep2 prev : Tensor3) (std mean : Vec)
    (hdin : grid_rep2.d = om.din) (hstd : om.dout = std.dim)
    (hmean : om.dout = mean.dim) (hB : prev.B = grid_rep2.B)
    (hN : prev.N = grid_rep2.N) (hd : prev.d = om.dout)
    (hzero : ∀ v k, om.f v k = 0) (hmean0 : ∀ k, mean.v k = 0) :
    (applyMlp3 om grid_rep2).bind (fun net_output =>
      (mulVec net_output std).bind (fun scaled =>
        (addVec scaled mean).bind (fun rescaled => tAdd prev rescaled)))
      = some prev := by
  rw [applyMlp3_eq om grid_rep2 hdin, Option.some_bind]
  rw [mulVec_eq ⟨grid_rep2.B, grid_rep2.N, om.dout,
      fun b n k => om.f (fun j => grid_rep2.data b n j) k⟩ std hstd,
    Option.some_bind]
  show (addVec ⟨grid_rep2.B, grid_rep2.N, om.dout,
      fun b n k => om.f (fun j => grid_rep2.data b n j) k * std.v k⟩ mean).bind
    (fun rescaled => tAdd prev rescaled) = some prev
  rw [addVec_eq ⟨grid_rep2.B, grid_rep2.N, om.dout,
      fun b n k => om.f (fun j => grid_rep2.data b n j) k * std.v k⟩ mean hmean,
    Option.some_bind]
  show tAdd prev ⟨grid_rep2.B, grid_rep2.N, om.dout,
      fun b n k => om.f (fun j => grid_rep2.data b n j) k * std.v k + mean.v k⟩
    = some prev
  rw [tAdd_eq prev ⟨grid_rep2.B, grid_rep2.N, om.dout,
      fun b n k => om.f (fun j => grid_rep2.data b n j) k * std.v k + mean.v k⟩
    hB hN hd]
  have hdata : (fun b n k => prev.data b n k +
      (om.f (fun j => grid_rep2.data b n j) k * std.v k + mean.v k)) = prev.data := by
    funext b n k
    rw [hzero, hmean0, zero_mul, zero_add, add_zero]
  show some (⟨prev.B, prev.N, prev.d, fun b n k => prev.data b n k +
      (om.f (fun j => grid_rep2.data b n j) k * std.v k + mean.v k)⟩ : Tensor3)
    = some prev
  rw [hdata]

/-- C8: if the output_map weights produce all-zero network output and
step_diff_mean is the zero vector, then predict_step returns a tensor exactly
equal to prev_state. -/
theorem predict_step_zero_residual (m : GraphModel)
    (prev_state prev_prev_state batch_static_features forcing : Tensor3)
    (hpN : prev_state.N = m.N_grid)
    (hpd : prev_state.d = m.grid_state_dim)
    (hqB : prev_prev_state.B = prev_state.B) (hqN : prev_prev_state.N = prev_state.N)
    (hqd : prev_prev_state.d = m.grid_state_dim)
    (hsB : batch_static_features.B = prev_state.B)
    (hsN : batch_static_features.N = prev_state.N)
    (hsd : batch_static_features.d = m.batch_static_feature_dim)
    (hfB : forcing.B = prev_state.B) (hfN : forcing.N = prev_state.N)
    (hfd : forcing.d = m.grid_forcing_dim)
    (hge : m.grid_embedder.din = 2 * m.grid_state_dim + m.grid_static_features.d
      + m.grid_forcing_dim + m.batch_static_feature_dim)
    (hg2m : m.g2m_embedder.din = m.g2m_features.d)
    (hm2g : m.m2g_embedder.din = m.m2g_features.d)
    (hencin : m.encoding_grid_mlp.din = m.grid_embedder.dout)
    (hencout : m.encoding_grid_mlp.dout = m.grid_embedder.dout)
    (homin : m.output_map.din = m.grid_embedder.dout)
    (homout : m.output_map.dout = m.grid_state_dim)
    (hstd : m.step_diff_std.dim = m.grid_state_dim)
    (hmean : m.step_diff_mean.dim = m.grid_state_dim)
    (hzero : ∀ v k, m.output_map.f v k = 0)
    (hmean0 : ∀ k, m.step_diff_mean.v k = 0) :
    m.predict_step prev_state prev_prev_state batch_static_features forcing
      = some prev_state := by
  obtain ⟨c1, hc1, hc1B, hc1N, hc1d⟩ :=
    catFeat_some prev_state prev_prev_state hqB.symm hqN.symm
  obtain ⟨c2, hc2, hc2B, hc2N, hc2d⟩ :=
    catFeat_some c1 batch_static_features (by rw [hc1B, hsB]) (by rw [hc1N, hsN])
  obtain ⟨c3, hc3, hc3B, hc3N, hc3d⟩ :=
    catFeat_some c2 forcing (by rw [hc2B, hc1B, hfB]) (by rw [hc2N, hc1N, hfN])
  obtain ⟨gf, hgf, hgfB, hgfN, hgfd⟩ :=
    catFeat_some c3 (expandToBatch m.grid_static_features prev_state.B)
      (by rw [hc3B, hc2B, hc1B, expandToBatch_B])
      (by rw [hc3N, hc2N, hc1N, expandToBatch_N]; exact hpN)
  obtain ⟨ge, hge', hgeB, hgeN, hged⟩ := applyMlp3_some m.grid_embedder gf
    (by rw [hgfd, hc3d, hc2d, hc1d, hpd, hqd, hsd, hfd, expandToBatch_d, hge]; ring)
  obtain ⟨g2me, hg2me, hg2meN, hg2med⟩ :=
    applyMlp2_some m.g2m_embedder m.g2m_features hg2m.symm
  obtain ⟨m2ge, hm2ge, hm2geN, hm2ged⟩ :=
    applyMlp2_some m.m2g_embedder m.m2g_features hm2g.symm
  obtain ⟨enc, henc, hencB, hencN, hencd⟩ := applyMlp3_some m.encoding_grid_mlp ge
    (by rw [hged, hencin])
  obtain ⟨gr, hgr, hgrB, hgrN, hgrd⟩ := tAdd_some ge enc
    (by rw [hencB]) (by rw [hencN]) (by rw [hged, hencd, hencout])
  simp only [GraphModel.predict_step, Option.bind_eq_bind, hc1, hc2, hc3, hgf,
    hge', hg2me, hm2ge, henc, hgr, Option.some_bind]
  exact output_zero_tail m.output_map
    (m.m2g_gnn.runNode
      (m.process_step (m.g2m_gnn.runNode ge
        (expandToBatch m.embedd_mesh_nodes prev_state.B)
        (expandToBatch g2me prev_state.B)))
      gr (expandToBatch m2ge prev_state.B))
    prev_state m.step_diff_std m.step_diff_mean
    (by rw [Gnn.runNode_d, hgrd, hged]; exact homin.symm)
    (by rw [homout, hstd]) (by rw [homout, hmean])
    (by rw [Gnn.runNode_B, hgrB, hgeB, hgfB, hc3B, hc2B, hc1B])
    (by rw [Gnn.runNode_N, hgrN, hgeN, hgfN, hc3N, hc2N, hc1N])
    (by rw [homout]; exact hpd) hzero hmean0

/-- Witness for C8 at a concrete model (zero output_map, zero mean) and batch. -/
theorem predict_step_zero_residual_witness :
    witnessModel.predict_step witnessState witnessState witnessState witnessState
      = some witnessState :=
  predict_step_zero_residual witnessModel witnessState witnessState witnessState
    witnessState rfl rfl rfl rfl rfl rfl rfl rfl rfl rfl rfl rfl rfl rfl rfl rfl
    rfl rfl rfl rfl (fun _ _ => rfl) (fun _ => rfl)

theorem shapeList_set (xs : List Tensor3) (i : Nat) (t : Tensor3)
    (h : t.shape = (xs.getD i default).shape) :
    shapeList (xs.set i t) = shapeList xs := by
  induction xs generalizing i with
  | nil => rfl
  | cons x xs ih =>
    cases i with
    | zero => exact congrArg (fun s => s :: shapeList xs) h
    | succ n => exact congrArg (fun l => x.shape :: l) (ih n h)

theorem foldl_invariant {α β : Type} (f : β → α → β) (P : β → Prop)
    (hf : ∀ s a, P s → P (f s a)) :
    ∀ (l : List α) (s : β), P s → P (List.foldl f s l)
  | [], _, hs => hs
  | a :: l, s, hs => foldl_invariant f P hf l (f s a) (hf s a hs)

theorem shapeList_getD (xs : List Tensor3) (i : Nat) :
    (shapeList xs).getD i (Tensor3.shape default) = (xs.getD i default).shape := by
  induction xs generalizing i with
  | nil => rfl
  | cons x xs ih =>
    cases i with
    | zero => rfl
    | succ n => exact ih n

theorem getD_shape_eq {xs ys : List Tensor3} (h : shapeList xs = shapeList ys)
    (i : Nat) : (xs.getD i default).shape = (ys.getD i default).shape := by
  rw [← shapeList_getD, ← shapeList_getD, h]

theorem meshInitFold_shape (gnns : List Gnn) (levels upRep : List Tensor3) :
    shapeList (meshInitFold gnns levels upRep).1 = shapeList levels ∧
    shapeList (meshInitFold gnns levels upRep).2 = shapeList upRep :=
  foldl_invariant (meshInitStep gnns)
    (fun st => shapeList st.1 = shapeList levels ∧ shapeList st.2 = shapeList upRep)
    (fun st i hst =>
      ⟨(shapeList_set st.1 (i + 1)
          ((gnns.getD i default).run (st.1.getD (i + 1 - 1) default)
            (st.1.getD (i + 1) default) (st.2.getD (i + 1 - 1) default)).1
          rfl).trans hst.1,
       (shapeList_set st.2 (i + 1 - 1)
          ((gnns.getD i default).run (st.1.getD (i + 1 - 1) default)
            (st.1.getD (i + 1) default) (st.2.getD (i + 1 - 1) default)).2
          rfl).trans hst.2⟩)
    (List.range gnns.length) (levels, upRep) ⟨rfl, rfl⟩

theorem meshReadoutFold_shape (gnns : List Gnn) (downRep levels : List Tensor3) :
    shapeList (meshReadoutFold gnns downRep levels) = shapeList levels :=
  foldl_invariant (meshReadoutStep gnns downRep)
    (fun lv => shapeList lv = shapeList levels)
    (fun lv l h =>
      (shapeList_set lv l
        ((gnns.getD l default).runNode (lv.getD (l + 1) default)
          (lv.getD l default) (downRep.getD l default)) rfl).trans h)
    ((List.range gnns.length).reverse) levels rfl

/-- C2: for every hierarchical model (at least two levels) and every
hi_processor_step policy that preserves the per-level node shapes, whenever
process_step returns a result on a mesh_rep whose node count is
N_mesh_levels[0], that result is the bottom-level representation: its node
dimension equals N_mesh_levels[0]; levels 1 and above are only scratch state
inside the call. -/
theorem hi_process_step_bottom_shape (m : HiModel)
    (hiStep : List Tensor3 → List Tensor3 → List Tensor3 → List Tensor3 →
      List Tensor3 × List Tensor3 × List Tensor3 × List Tensor3)
    (hL : 2 ≤ m.N_levels)
    (hstep : ∀ a b c d, shapeList (hiStep a b c d).1 = shapeList a)
    (mesh_rep : Tensor3) (hN : mesh_rep.N = m.N_mesh_levels.getD 0 0)
    (out : Tensor3)
    (hout : m.process_step hiStep mesh_rep = some out) :
    out.N = m.N_mesh_levels.getD 0 0 := by
  simp only [HiModel.process_step, Option.bind_eq_bind] at hout
  obtain ⟨rest, hrest, hout⟩ := Option.bind_eq_some.mp hout
  obtain ⟨same, hsame, hout⟩ := Option.bind_eq_some.mp hout
  obtain ⟨up, hup, hout⟩ := Option.bind_eq_some.mp hout
  obtain ⟨down, hdown, hout⟩ := Option.bind_eq_some.mp hout
  have hX := (Option.some.inj hout).symm
  rw [hX]
  have hp := (meshInitFold_shape m.mesh_init_gnns (mesh_rep :: rest) up).1
  have hq := hstep (meshInitFold m.mesh_init_gnns (mesh_rep :: rest) up).1 same
    (meshInitFold m.mesh_init_gnns (mesh_rep :: rest) up).2 down
  have hr := meshReadoutFold_shape m.mesh_read_gnns
    (hiStep (meshInitFold m.mesh_init_gnns (mesh_rep :: rest) up).1 same
      (meshInitFold m.mesh_init_gnns (mesh_rep :: rest) up).2 down).2.2.2
    (hiStep (meshInitFold m.mesh_init_gnns (mesh_rep :: rest) up).1 same
      (meshInitFold m.mesh_init_gnns (mesh_rep :: rest) up).2 down).1
  have hchain := hr.trans (hq.trans hp)
  have hsh := getD_shape_eq hchain 0
  have hN' := congrArg (fun s : Nat × Nat × Nat => s.2.1) hsh
  exact Eq.trans hN' hN

/-- Witness for C2 at a concrete two-level model and batch. -/
theorem hi_process_step_bottom_shape_witness :
    ((hiWitnessModel.process_step idHiStep witnessState).getD default).N
      = hiWitnessModel.N_mesh_levels.getD 0 0 :=
  hi_process_step_bottom_shape hiWitnessModel idHiStep (by decide)
    (fun _ _ _ _ => rfl) witnessState rfl
    ((hiWitnessModel.process_step idHiStep witnessState).getD default) rfl

theorem catDim1_some (B0 d0 : Nat) :
    ∀ (ts : List Tensor3), ts ≠ [] → (∀ t ∈ ts, t.B = B0 ∧ t.d = d0) →
      ∃ c, catDim1 ts = some c ∧ c.B = B0 ∧ c.d = d0 ∧
        c.N = (ts.map Tensor3.N).sum
  | [], h, _ => absurd rfl h
  | [t], _, hall => by
    obtain ⟨hB, hd⟩ := hall t (List.mem_singleton.mpr rfl)
    exact ⟨t, rfl, hB, hd, by simp⟩
  | t :: u :: rest, _, hall => by
    obtain ⟨c2, hc2, hB2, hd2, hN2⟩ := catDim1_some B0 d0 (u :: rest)
      (List.cons_ne_nil u rest)
      (fun x hx => hall x (List.mem_cons_of_mem t hx))
    obtain ⟨hB, hd⟩ := hall t (List.mem_cons_self t (u :: rest))
    have hcond : t.B = c2.B ∧ t.d = c2.d := ⟨hB.trans hB2.symm, hd.trans hd2.symm⟩
    refine ⟨⟨t.B, t.N + c2.N, t.d, fun b n k => if n < t.N then t.data b n k
        else c2.data b (n - t.N) k⟩, ?_, hB, hd, ?_⟩
    · show (catDim1 (u :: rest)).bind (fun c => cat2dim1 t c) = _
      rw [hc2, Option.some_bind, cat2dim1, if_pos hcond]
    · show t.N + c2.N = (Tensor3.N t :: (u :: rest).map Tensor3.N).sum
      rw [List.sum_cons, hN2]

theorem splitAux_shift (c c2 : Tensor3) (tN : Nat)
    (hB : c.B = c2.B) (hd : c.d = c2.d)
    (hdata : ∀ b n k, c.data b (tN + n) k = c2.data b n k) :
    ∀ (secs : List Nat) (off : Nat),
      List.Forall₂ Tensor3.EqOn (splitDim1Aux c (tN + off) secs)
        (splitDim1Aux c2 off secs)
  | [], _ => List.Forall₂.nil
  | s :: secs, off => by
    refine List.Forall₂.cons ?_ ?_
    · refine ⟨hB, rfl, hd, fun b _ n _ k _ => ?_⟩
      show c.data b (tN + off + n) k = c2.data b (off + n) k
      rw [Nat.add_assoc]
      exact hdata b (off + n) k
    · have h := splitAux_shift c c2 tN hB hd hdata secs (off + s)
      rw [← Nat.add_assoc] at h
      exact h

theorem forall2_eqOn_trans :
    ∀ {xs ys zs : List Tensor3}, List.Forall₂ Tensor3.EqOn xs ys →
      List.Forall₂ Tensor3.EqOn ys zs → List.Forall₂ Tensor3.EqOn xs zs
  | [], [], [], _, _ => List.Forall₂.nil
  | _ :: _, _ :: _, _ :: _, List.Forall₂.cons h1 t1, List.Forall₂.cons h2 t2 =>
    List.Forall₂.cons (h1.trans h2) (forall2_eqOn_trans t1 t2)

theorem split_cat_eqOn :
    ∀ (ts : List Tensor3) (c : Tensor3), catDim1 ts = some c →
      List.Forall₂ Tensor3.EqOn (splitDim1 c (ts.map Tensor3.N)) ts
  | [], c, hc => by cases hc
  | [t], c, hc => by
    have hct : t = c := Option.some.inj hc
    subst hct
    refine List.Forall₂.cons ?_ List.Forall₂.nil
    exact ⟨rfl, rfl, rfl, fun b _ n _ k _ => by
      show t.data b (0 + n) k = t.data b n k
      rw [Nat.zero_add]⟩
  | t :: u :: rest, c, hc => by
    obtain ⟨c2, hc2, hcat⟩ := Option.bind_eq_some.mp hc
    rw [cat2dim1] at hcat
    by_cases hcond : t.B = c2.B ∧ t.d = c2.d
    · rw [if_pos hcond] at hcat
      have hcc := Option.some.inj hcat
      subst hcc
      refine List.Forall₂.cons ?_ ?_
      · refine ⟨rfl, rfl, rfl, fun b _ n hn k _ => ?_⟩
        show (if 0 + n < t.N then t.data b (0 + n) k
          else c2.data b (0 + n - t.N) k) = t.data b n k
        rw [Nat.zero_add, if_pos (show n < t.N from hn)]
      · have hdata : ∀ b n k,
            (⟨t.B, t.N + c2.N, t.d, fun b n k => if n < t.N then t.data b n k
              else c2.data b (n - t.N) k⟩ : Tensor3).data b (t.N + n) k
            = c2.data b n k := by
          intro b n k
          show (if t.N + n < t.N then t.data b (t.N + n) k
            else c2.data b (t.N + n - t.N) k) = c2.data b n k
          rw [if_neg (by omega), Nat.add_sub_cancel_left]
        have hshift := splitAux_shift
          ⟨t.B, t.N + c2.N, t.d, fun b n k => if n < t.N then t.data b n k
            else c2.data b (n - t.N) k⟩ c2 t.N hcond.1 hcond.2 hdata
          ((u :: rest).map Tensor3.N) 0
        have hrec := split_cat_eqOn (u :: rest) c2 hc2
        have h0 : (0 : Nat) + t.N = t.N + 0 := by omega
        rw [← h0] at hshift
        exact forall2_eqOn_trans hshift hrec
    · rw [if_neg hcond] at hcat
      cases hcat

/-- C7: for any list of per-level tensors (with a common batch size and
feature dimension, as torch.cat requires), splitting the concatenation along
the node axis by the same partition sizes reproduces the original per-level
tensors exactly. -/
theorem cat_split_roundtrip (B0 d0 : Nat) (ts : List Tensor3) (hne : ts ≠ [])
    (hall : ∀ t ∈ ts, t.B = B0 ∧ t.d = d0) :
    ∃ c, catDim1 ts = some c ∧
      List.Forall₂ Tensor3.EqOn (splitDim1 c (ts.map Tensor3.N)) ts := by
  obtain ⟨c, hc, _, _, _⟩ := catDim1_some B0 d0 ts hne hall
  exact ⟨c, hc, split_cat_eqOn ts c hc⟩

/-- Witness for C7 at a concrete two-tensor list. -/
theorem cat_split_roundtrip_witness :
    ∃ c, catDim1 [witnessState, witnessState2] = some c ∧
      List.Forall₂ Tensor3.EqOn
        (splitDim1 c ([witnessState, witnessState2].map Tensor3.N))
        [witnessState, witnessState2] := by
  refine cat_split_roundtrip 1 1 [witnessState, witnessState2]
    (List.cons_ne_nil _ _) ?_
  intro t ht
  rcases List.mem_cons.mp ht with rfl | ht
  · exact ⟨rfl, rfl⟩
  rcases List.mem_cons.mp ht with rfl | ht
  · exact ⟨rfl, rfl⟩
  · cases ht

/-- C4: for HiLAMParallel constructed with processor_layers = 0 the processor
is the identity, so hi_processor_step returns node-level and edge-family
lists equal to its inputs (the init-phase result passes through unchanged). -/
theorem hiLamParallel_zero_layers_identity (m : HiParModel)
    (levels same up down : List Tensor3) (B0 d0 B1 d1 : Nat)
    (h0 : m.processor_layers = 0)
    (hL : 2 ≤ m.N_levels)
    (hlvlne : levels ≠ [])
    (hlvlBd : ∀ t ∈ levels, t.B = B0 ∧ t.d = d0)
    (hlvlN : levels.map Tensor3.N = m.N_mesh_levels)
    (hEBd : ∀ t ∈ same ++ up ++ down, t.B = B1 ∧ t.d = d1)
    (hEN : (same ++ up ++ down).map Tensor3.N = m.edge_split_sections)
    (hsl : same.length = m.N_levels)
    (hul : up.length = m.N_levels - 1)
    (hdl : down.length = m.N_levels - 1) :
    ∃ r, m.hi_processor_step levels same up down = some r ∧
      List.Forall₂ Tensor3.EqOn r.1 levels ∧
      List.Forall₂ Tensor3.EqOn r.2.1 same ∧
      List.Forall₂ Tensor3.EqOn r.2.2.1 up ∧
      List.Forall₂ Tensor3.EqOn r.2.2.2 down := by
  have hEne : same ++ up ++ down ≠ [] := by
    intro h
    have hlen := congrArg List.length h
    simp only [List.length_append, List.length_nil, hsl] at hlen
    omega
  obtain ⟨cn, hcn, _, _, _⟩ := catDim1_some B0 d0 levels hlvlne hlvlBd
  obtain ⟨ce, hce, _, _, _⟩ := catDim1_some B1 d1 _ hEne hEBd
  have hproc : m.processor cn ce = (cn, ce) := by
    rw [HiParModel.processor, if_pos h0]
  have hrtn := split_cat_eqOn levels cn hcn
  rw [hlvlN] at hrtn
  have hrte := split_cat_eqOn _ ce hce
  rw [hEN] at hrte
  have htake := List.forall₂_take m.N_levels hrte
  have he1 : (same ++ up ++ down).take m.N_levels = same := by
    rw [List.append_assoc]
    exact List.take_left' hsl
  rw [he1] at htake
  have hdrop := List.forall₂_drop m.N_levels hrte
  have he2 : (same ++ up ++ down).drop m.N_levels = up ++ down := by
    rw [List.append_assoc]
    exact List.drop_left' hsl
  rw [he2] at hdrop
  have hup := List.forall₂_take (m.N_levels - 1) hdrop
  rw [List.take_left' hul] at hup
  have hdown := List.forall₂_drop (m.N_levels + (m.N_levels - 1)) hrte
  have he3 : (same ++ up ++ down).drop (m.N_levels + (m.N_levels - 1)) = down := by
    refine List.drop_left' ?_
    rw [List.length_append, hsl, hul]
  rw [he3] at hdown
  refine ⟨(splitDim1 cn m.N_mesh_levels,
    (splitDim1 ce m.edge_split_sections).take m.N_levels,
    ((splitDim1 ce m.edge_split_sections).drop m.N_levels).take (m.N_levels - 1),
    (splitDim1 ce m.edge_split_sections).drop (m.N_levels + (m.N_levels - 1))),
    ?_, hrtn, htake, hup, hdown⟩
  simp only [HiParModel.hi_processor_step, Option.bind_eq_bind, hcn, hce,
    Option.some_bind, hproc]
  rfl

/-- Witness for C4 at a concrete model and inputs. -/
theorem hiLamParallel_zero_layers_identity_witness :
    ∃ r, hiParWitnessModel.hi_processor_step [witnessState, witnessState]
        [witnessState, witnessState] [witnessState] [witnessState] = some r ∧
      List.Forall₂ Tensor3.EqOn r.1 [witnessState, witnessState] ∧
      List.Forall₂ Tensor3.EqOn r.2.1 [witnessState, witnessState] ∧
      List.Forall₂ Tensor3.EqOn r.2.2.1 [witnessState] ∧
      List.Forall₂ Tensor3.EqOn r.2.2.2 [witnessState] :=
  hiLamParallel_zero_layers_identity hiParWitnessModel
    [witnessState, witnessState] [witnessState, witnessState]
    [witnessState] [witnessState] 1 1 1 1
    rfl (by decide) (List.cons_ne_nil _ _)
    (by intro t ht
        rcases List.mem_cons.mp ht with rfl | ht
        · exact ⟨rfl, rfl⟩
        rcases List.mem_cons.mp ht with rfl | ht
        · exact ⟨rfl, rfl⟩
        · cases ht)
    rfl
    (by intro t ht
        have ht2 : t ∈ [witnessState, witnessState, witnessState, witnessState] := ht
        rcases List.mem_cons.mp ht2 with rfl | ht2
        · exact ⟨rfl, rfl⟩
        rcases List.mem_cons.mp ht2 with rfl | ht2
        · exact ⟨rfl, rfl⟩
        rcases List.mem_cons.mp ht2 with rfl | ht2
        · exact ⟨rfl, rfl⟩
        rcases List.mem_cons.mp ht2 with rfl | ht2
        · exact ⟨rfl, rfl⟩
        · cases ht2)
    rfl rfl rfl rfl

theorem splitAux_length (t : Tensor3) :
    ∀ (secs : List Nat) (off : Nat), (splitDim1Aux t off secs).length = secs.length
  | [], _ => rfl
  | _ :: secs, off => congrArg Nat.succ (splitAux_length t secs (off + _))

theorem splitAux_append (t : Tensor3) :
    ∀ (s1 s2 : List Nat) (off : Nat),
      splitDim1Aux t off (s1 ++ s2)
        = splitDim1Aux t off s1 ++ splitDim1Aux t (off + s1.sum) s2
  | [], s2, off => by simp [splitDim1Aux]
  | s :: s1, s2, off => by
    show sliceDim1 t off s :: splitDim1Aux t (off + s) (s1 ++ s2) = _
    rw [splitAux_append t s1 s2 (off + s)]
    show _ = sliceDim1 t off s ::
      (splitDim1Aux t (off + s) s1 ++ splitDim1Aux t (off + (s :: s1).sum) s2)
    rw [List.sum_cons, ← Nat.add_assoc]

theorem splitAux_getD (t : Tensor3) :
    ∀ (secs : List Nat) (off i : Nat), i < secs.length →
      (splitDim1Aux t off secs).getD i default
        = sliceDim1 t (off + (secs.take i).sum) (secs.getD i 0)
  | [], _, i, hi => absurd hi (by simp)
  | s :: secs, off, 0, _ => by
    show sliceDim1 t off s = sliceDim1 t (off + ([] : List Nat).sum) s
    rw [List.sum_nil, Nat.add_zero]
  | s :: secs, off, i + 1, hi => by
    show (splitDim1Aux t (off + s) secs).getD i default = _
    rw [splitAux_getD t secs (off + s) i (by simpa using hi)]
    show sliceDim1 t (off + s + (secs.take i).sum) (secs.getD i 0)
      = sliceDim1 t (off + (s :: secs.take i).sum) ((s :: secs).getD (i + 1) 0)
    rw [List.sum_cons, ← Nat.add_assoc]
    rfl

theorem edge_split_sections_eq (m : HiParModel) :
    m.edge_split_sections = m.same_sections ++ m.up_sections ++ m.down_sections := by
  simp [HiParModel.edge_split_sections, HiParModel.same_sections,
    HiParModel.up_sections, HiParModel.down_sections]

/-- C6: HiLAMParallel.hi_processor_step concatenates the node levels into one
tensor and the edge families into one tensor in the fixed order same-level,
up, down, and after processing splits back by the precomputed partitions
(N_mesh_levels for nodes, edge_split_sections for edges) preserving order:
the returned lists have N_levels, N_levels-1 and N_levels-1 entries, and
every entry is the contiguous section of the processed tensor starting at the
cumulative offset of its family and level. -/
theorem hiLamParallel_split_order (m : HiParModel)
    (levels same up down : List Tensor3) (B0 d0 B1 d1 : Nat)
    (hL : 2 ≤ m.N_levels)
    (hlvlne : levels ≠ [])
    (hlvlBd : ∀ t ∈ levels, t.B = B0 ∧ t.d = d0)
    (hEBd : ∀ t ∈ same ++ up ++ down, t.B = B1 ∧ t.d = d1)
    (hsl : same.length = m.N_levels)
    (hml : m.m2m_edge_index.length = m.N_levels)
    (hulx : m.mesh_up_edge_index.length = m.N_levels - 1)
    (hdlx : m.mesh_down_edge_index.length = m.N_levels - 1) :
    ∃ cn ce r, catDim1 levels = some cn ∧
      catDim1 (same ++ up ++ down) = some ce ∧
      m.hi_processor_step levels same up down = some r ∧
      r.2.1.length = m.N_levels ∧
      r.2.2.1.length = m.N_levels - 1 ∧
      r.2.2.2.length = m.N_levels - 1 ∧
      (∀ l, l < m.N_mesh_levels.length →
        r.1.getD l default = sliceDim1 (m.processor cn ce).1
          ((m.N_mesh_levels.take l).sum) (m.N_mesh_levels.getD l 0)) ∧
      (∀ l, l < m.N_levels →
        r.2.1.getD l default = sliceDim1 (m.processor cn ce).2
          ((m.same_sections.take l).sum) (m.same_sections.getD l 0)) ∧
      (∀ l, l < m.N_levels - 1 →
        r.2.2.1.getD l default = sliceDim1 (m.processor cn ce).2
          (m.same_sections.sum + (m.up_sections.take l).sum)
          (m.up_sections.getD l 0)) ∧
      (∀ l, l < m.N_levels - 1 →
        r.2.2.2.getD l default = sliceDim1 (m.processor cn ce).2
          (m.same_sections.sum + m.up_sections.sum
            + (m.down_sections.take l).sum)
          (m.down_sections.getD l 0)) := by
  have hEne : same ++ up ++ down ≠ [] := by
    intro h
    have hlen := congrArg List.length h
    simp only [List.length_append, List.length_nil, hsl] at hlen
    omega
  obtain ⟨cn, hcn, _, _, _⟩ := catDim1_some B0 d0 levels hlvlne hlvlBd
  obtain ⟨ce, hce, _, _, _⟩ := catDim1_some B1 d1 _ hEne hEBd
  have hAlen : (splitDim1Aux (m.processor cn ce).2 0 m.same_sections).length
      = m.N_levels := by
    rw [splitAux_length, HiParModel.same_sections, List.length_map, hml]
  have hBlen : (splitDim1Aux (m.processor cn ce).2 (0 + m.same_sections.sum)
      m.up_sections).length = m.N_levels - 1 := by
    rw [splitAux_length, HiParModel.up_sections, List.length_map, hulx]
  have hS : splitDim1 (m.processor cn ce).2 m.edge_split_sections
      = (splitDim1Aux (m.processor cn ce).2 0 m.same_sections
          ++ splitDim1Aux (m.processor cn ce).2 (0 + m.same_sections.sum)
            m.up_sections)
        ++ splitDim1Aux (m.processor cn ce).2
            (0 + (m.same_sections ++ m.up_sections).sum) m.down_sections := by
    show splitDim1Aux _ 0 m.edge_split_sections = _
    rw [edge_split_sections_eq, splitAux_append, splitAux_append]
  have h21 : (splitDim1 (m.processor cn ce).2 m.edge_split_sections).take
      m.N_levels = splitDim1Aux (m.processor cn ce).2 0 m.same_sections := by
    rw [hS, List.append_assoc]
    exact List.take_left' hAlen
  have h221 : ((splitDim1 (m.processor cn ce).2 m.edge_split_sections).drop
      m.N_levels).take (m.N_levels - 1)
      = splitDim1Aux (m.processor cn ce).2 (0 + m.same_sections.sum)
        m.up_sections := by
    rw [hS, List.append_assoc, List.drop_left' hAlen]
    exact List.take_left' hBlen
  have h222 : (splitDim1 (m.processor cn ce).2 m.edge_split_sections).drop
      (m.N_levels + (m.N_levels - 1))
      = splitDim1Aux (m.processor cn ce).2
          (0 + (m.same_sections ++ m.up_sections).sum) m.down_sections := by
    rw [hS]
    refine List.drop_left' ?_
    rw [List.length_append, hAlen, hBlen]
  refine ⟨cn, ce,
    (splitDim1 (m.processor cn ce).1 m.N_mesh_levels,
      (splitDim1 (m.processor cn ce).2 m.edge_split_sections).take m.N_levels,
      ((splitDim1 (m.processor cn ce).2 m.edge_split_sections).drop
        m.N_levels).take (m.N_levels - 1),
      (splitDim1 (m.processor cn ce).2 m.edge_split_sections).drop
        (m.N_levels + (m.N_levels - 1))),
    hcn, hce, ?_, ?_, ?_, ?_, ?_, ?_, ?_, ?_⟩
  · simp only [HiParModel.hi_processor_step, Option.bind_eq_bind, hcn, hce,
      Option.some_bind]
    rfl
  · show ((splitDim1 (m.processor cn ce).2 m.edge_split_sections).take
      m.N_levels).length = m.N_levels
    rw [h21]
    exact hAlen
  · show (((splitDim1 (m.processor cn ce).2 m.edge_split_sections).drop
      m.N_levels).take (m.N_levels - 1)).length = m.N_levels - 1
    rw [h221]
    exact hBlen
  · show ((splitDim1 (m.processor cn ce).2 m.edge_split_sections).drop
      (m.N_levels + (m.N_levels - 1))).length = m.N_levels - 1
    rw [h222, splitAux_length, HiParModel.down_sections, List.length_map, hdlx]
  · intro l hl
    show (splitDim1 (m.processor cn ce).1 m.N_mesh_levels).getD l default = _
    rw [show splitDim1 (m.processor cn ce).1 m.N_mesh_levels
        = splitDim1Aux (m.processor cn ce).1 0 m.N_mesh_levels from rfl,
      splitAux_getD _ _ 0 l hl, Nat.zero_add]
  · intro l hl
    show ((splitDim1 (m.processor cn ce).2 m.edge_split_sections).take
      m.N_levels).getD l default = _
    rw [h21, splitAux_getD _ _ 0 l
      (by rw [HiParModel.same_sections, List.length_map, hml]; exact hl),
      Nat.zero_add]
  · intro l hl
    show (((splitDim1 (m.processor cn ce).2 m.edge_split_sections).drop
      m.N_levels).take (m.N_levels - 1)).getD l default = _
    rw [h221, splitAux_getD _ _ (0 + m.same_sections.sum) l
      (by rw [HiParModel.up_sections, List.length_map, hulx]; exact hl),
      Nat.zero_add]
  · intro l hl
    show ((splitDim1 (m.processor cn ce).2 m.edge_split_sections).drop
      (m.N_levels + (m.N_levels - 1))).getD l default = _
    rw [h222, splitAux_getD _ _ (0 + (m.same_sections ++ m.up_sections).sum) l
      (by rw [HiParModel.down_sections, List.length_map, hdlx]; exact hl),
      Nat.zero_add, List.sum_append]

/-- Witness for C6 at a concrete model and inputs. -/
theorem hiLamParallel_split_order_witness :
    ∃ cn ce r, catDim1 [witnessState, witnessState] = some cn ∧
      catDim1 ([witnessState, witnessState] ++ [witnessState] ++ [witnessState])
        = some ce ∧
      hiParWitnessModel.hi_processor_step [witnessState, witnessState]
        [witnessState, witnessState] [witnessState] [witnessState] = some r ∧
      r.2.1.length = hiParWitnessModel.N_levels ∧
      r.2.2.1.length = hiParWitnessModel.N_levels - 1 ∧
      r.2.2.2.length = hiParWitnessModel.N_levels - 1 ∧
      (∀ l, l < hiParWitnessModel.N_mesh_levels.length →
        r.1.getD l default = sliceDim1 (hiParWitnessModel.processor cn ce).1
          ((hiParWitnessModel.N_mesh_levels.take l).sum)
          (hiParWitnessModel.N_mesh_levels.getD l 0)) ∧
      (∀ l, l < hiParWitnessModel.N_levels →
        r.2.1.getD l default = sliceDim1 (hiParWitnessModel.processor cn ce).2
          ((hiParWitnessModel.same_sections.take l).sum)
          (hiParWitnessModel.same_sections.getD l 0)) ∧
      (∀ l, l < hiParWitnessModel.N_levels - 1 →
        r.2.2.1.getD l default = sliceDim1 (hiParWitnessModel.processor cn ce).2
          (hiParWitnessModel.same_sections.sum
            + (hiParWitnessModel.up_sections.take l).sum)
          (hiParWitnessModel.up_sections.getD l 0)) ∧
      (∀ l, l < hiParWitnessModel.N_levels - 1 →
        r.2.2.2.getD l default = sliceDim1 (hiParWitnessModel.processor cn ce).2
          (hiParWitnessModel.same_sections.sum
            + hiParWitnessModel.up_sections.sum
            + (hiParWitnessModel.down_sections.take l).sum)
          (hiParWitnessModel.down_sections.getD l 0)) :=
  hiLamParallel_split_order hiParWitnessModel
    [witnessState, witnessState] [witnessState, witnessState]
    [witnessState] [witnessState] 1 1 1 1
    (by decide) (List.cons_ne_nil _ _)
    (by intro t ht
        rcases List.mem_cons.mp ht with rfl | ht
        · exact ⟨rfl, rfl⟩
        rcases List.mem_cons.mp ht with rfl | ht
        · exact ⟨rfl, rfl⟩
        · cases ht)
    (by intro t ht
        have ht2 : t ∈ [witnessState, witnessState, witnessState, witnessState] := ht
        rcases List.mem_cons.mp ht2 with rfl | ht2
        · exact ⟨rfl, rfl⟩
        rcases List.mem_cons.mp ht2 with rfl | ht2
        · exact ⟨rfl, rfl⟩
        rcases List.mem_cons.mp ht2 with rfl | ht2
        · exact ⟨rfl, rfl⟩
        rcases List.mem_cons.mp ht2 with rfl | ht2
        · exact ⟨rfl, rfl⟩
        · cases ht2)
    rfl rfl rfl rfl

/-- C5: for HiLAM with a single processing layer and two mesh levels, one
hi_processor_step performs exactly one full down-sweep then one full
up-sweep: the trace is downSame 1, downEdge 0, downSame 0, upSame 0,
upEdge 1, upSame 1, so the same-level GNN of each level is applied exactly
once per sweep direction. -/
theorem hiLam_single_layer_trace (g : HiLamGnns)
    (dg0 ds0 ds1 ug0 us0 us1 : Gnn)
    (hd : g.mesh_down_gnns = [[dg0]])
    (hds : g.mesh_down_same_gnns = [[ds0, ds1]])
    (hu : g.mesh_up_gnns = [[ug0]])
    (hus : g.mesh_up_same_gnns = [[us0, us1]])
    (levels same up down : List Tensor3) :
    (hiLam_hi_processor_step g levels same up down).2.2.2.2
      = [GnnApp.downSame 1, GnnApp.downEdge 0, GnnApp.downSame 0,
         GnnApp.upSame 0, GnnApp.upEdge 1, GnnApp.upSame 1] ∧
    ∀ l, l < 2 →
      (hiLam_hi_processor_step g levels same up down).2.2.2.2.count
        (GnnApp.downSame l) = 1 ∧
      (hiLam_hi_processor_step g levels same up down).2.2.2.2.count
        (GnnApp.upSame l) = 1 := by
  obtain ⟨gd, gds, gu, gus⟩ := g
  have hd' : gd = [[dg0]] := hd
  have hds' : gds = [[ds0, ds1]] := hds
  have hu' : gu = [[ug0]] := hu
  have hus' : gus = [[us0, us1]] := hus
  subst hd' hds' hu' hus'
  have htr : (hiLam_hi_processor_step ⟨[[dg0]], [[ds0, ds1]], [[ug0]],
      [[us0, us1]]⟩ levels same up down).2.2.2.2
      = [GnnApp.downSame 1, GnnApp.downEdge 0, GnnApp.downSame 0,
         GnnApp.upSame 0, GnnApp.upEdge 1, GnnApp.upSame 1] := rfl
  refine ⟨htr, ?_⟩
  intro l hl
  rw [htr]
  interval_cases l
  · exact ⟨by decide, by decide⟩
  · exact ⟨by decide, by decide⟩

/-- Witness for C5 at a concrete model and inputs. -/
theorem hiLam_single_layer_trace_witness :
    (hiLam_hi_processor_step hiLamWitnessGnns [witnessState, witnessState]
      [witnessState, witnessState] [witnessState] [witnessState]).2.2.2.2
      = [GnnApp.downSame 1, GnnApp.downEdge 0, GnnApp.downSame 0,
         GnnApp.upSame 0, GnnApp.upEdge 1, GnnApp.upSame 1] ∧
    ∀ l, l < 2 →
      (hiLam_hi_processor_step hiLamWitnessGnns [witnessState, witnessState]
        [witnessState, witnessState] [witnessState] [witnessState]).2.2.2.2.count
        (GnnApp.downSame l) = 1 ∧
      (hiLam_hi_processor_step hiLamWitnessGnns [witnessState, witnessState]
        [witnessState, witnessState] [witnessState] [witnessState]).2.2.2.2.count
        (GnnApp.upSame l) = 1 :=
  hiLam_single_layer_trace hiLamWitnessGnns default default default default
    default default rfl rfl rfl rfl
    [witnessState, witnessState] [witnessState, witnessState]
    [witnessState] [witnessState]

/-- C3 evaluation at the failing input: on a well-formed non-hierarchical
configuration (all base attributes present, hierarchical = False) GraphLAM
construction does not succeed - line 310 raises AttributeError for the
misspelt attribute hierachical, which is none of the enumerated
configuration errors. -/
theorem graphLam_init_attribute_error :
    graphLamInitPrefix baseGraphModelAttrs false
      = Except.error "AttributeError: hierachical" := by rfl

/-- C9: when importing a dataset implementation fails with a missing optional
dependency at registry-build time, the failure is caught, a non-fatal warning
naming the dataset is recorded, the module import succeeds, and that dataset
name is simply absent from the registry. -/
theorem registry_missing_dependency (sm tn : ImportResult)
    (hsm : missingDep sm ∨ sm = ImportResult.ok)
    (htn : missingDep tn ∨ tn = ImportResult.ok) :
    ∃ st, buildRegistry sm tn = Except.ok st ∧
      (missingDep sm → "smeagol" ∉ st.registry ∧
        "Could not import smeagol" ∈ st.warnings) ∧
      (missingDep tn → "titan" ∉ st.registry ∧
        "Could not import titan" ∈ st.warnings) ∧
      (sm = ImportResult.ok → "smeagol" ∈ st.registry) ∧
      (tn = ImportResult.ok → "titan" ∈ st.registry) := by
  cases sm <;> cases tn <;>
    first
      | exact ⟨_, rfl, by decide, by decide, by decide, by decide⟩
      | exact absurd hsm (by decide)
      | exact absurd htn (by decide)

/-- Witness for C9: smeagol import fails with ImportError, titan succeeds. -/
theorem registry_missing_dependency_witness :
    ∃ st, buildRegistry ImportResult.importError ImportResult.ok
        = Except.ok st ∧
      (missingDep ImportResult.importError → "smeagol" ∉ st.registry ∧
        "Could not import smeagol" ∈ st.warnings) ∧
      (missingDep ImportResult.ok → "titan" ∉ st.registry ∧
        "Could not import titan" ∈ st.warnings) ∧
      (ImportResult.importError = ImportResult.ok → "smeagol" ∈ st.registry) ∧
      (ImportResult.ok = ImportResult.ok → "titan" ∈ st.registry) :=
  registry_missing_dependency ImportResult.importError ImportResult.ok
    (Or.inl (Or.inl rfl)) (Or.inr rfl)

/-- C10 counterexample: in evaluation mode test the claim fails - main does
not evaluate with the test loader; eval_loader was never assigned and the
run ends in a NameError before trainer.test can use any loader. -/
theorem eval_mode_test_counterexample :
    mainRun (some "test") = MainOutcome.nameError ∧
    mainRun (some "test") ≠ MainOutcome.testedWith Loader.test := by decide

/-- C10 amended: for mode val main evaluates with the test loader (the val
selection is immediately overwritten); for mode test eval_loader is never
assigned and main raises an unbound-local NameError before calling
trainer.test; in no mode does trainer.test receive the validation loader. -/
theorem eval_loader_amended :
    mainRun (some "val") = MainOutcome.testedWith Loader.test ∧
    mainRun (some "test") = MainOutcome.nameError ∧
    ∀ ev, mainRun ev ≠ MainOutcome.testedWith Loader.val := by
  refine ⟨by decide, by decide, ?_⟩
  intro ev
  cases ev with
  | none => simp [mainRun]
  | some e =>
    by_cases h : e = "val"
    · subst h; decide
    · simp [mainRun, h]
